import Mathlib

/-!
Shallow embedding of the kdljs KDL parser (`src/parser/kdl.js`).

The grammar engine of the source is built on chevrotain `RULE`s with
ordered alternatives (`OR`), optional pieces (`OPTION`) and gated loops
(`MANY`).  The embedding models the token stream as a `List Token`
(end-of-input is the empty list), each grammar rule as a function
`List Token → Except PError (α × List Token)`, and the mutually
recursive rules (`nodes`, `node`, the node entry loop, `nodeChildren`)
by recursion on an explicit fuel counter.

Rules defined in `src/parser/base.js` (not part of the sources given:
`string`, `value`, `nonStringValue`, `tag`, `nodeSpace`, `lineComment`)
are modelled from the spec, as marked on their doc comments.
-/

namespace Kdljs

/-- Token kinds of the lexer's `main` mode that the grammar consumes
(from the token catalog wired in `src/parser/kdl.js`). -/
inductive TokenType where
  | bom
  | whiteSpace
  | newLine
  | blockComment
  | lineComment
  | boolean
  | null
  | floatKeyword
  | rawString
  | identifier
  | integer
  | float
  | semiColon
  | equals
  | leftBrace
  | rightBrace
  | leftParenthesis
  | rightParenthesis
  | escLine
  | eof
  | unknown
deriving DecidableEq, Repr

/-- KDL values: a tagged union over String / Integer / Float / Boolean /
Null; floats keep their literal text. -/
inductive Value where
  | str (s : String)
  | int (i : Int)
  | float (raw : String)
  | bool (b : Bool)
  | null
deriving DecidableEq, Repr

/-- A lexed token together with its payload. -/
inductive Token where
  | bom
  | whiteSpace
  | newLine
  | blockComment
  | lineComment
  | boolean (b : Bool)
  | null
  | floatKeyword (raw : String)
  | rawString (s : String)
  | identifier (s : String)
  | integer (i : Int)
  | float (raw : String)
  | semiColon
  | equals
  | leftBrace
  | rightBrace
  | leftParenthesis
  | rightParenthesis
  | escLine
deriving DecidableEq, Repr

def Token.ttype : Token → TokenType
  | .bom => .bom
  | .whiteSpace => .whiteSpace
  | .newLine => .newLine
  | .blockComment => .blockComment
  | .lineComment => .lineComment
  | .boolean _ => .boolean
  | .null => .null
  | .floatKeyword _ => .floatKeyword
  | .rawString _ => .rawString
  | .identifier _ => .identifier
  | .integer _ => .integer
  | .float _ => .float
  | .semiColon => .semiColon
  | .equals => .equals
  | .leftBrace => .leftBrace
  | .rightBrace => .rightBrace
  | .leftParenthesis => .leftParenthesis
  | .rightParenthesis => .rightParenthesis
  | .escLine => .escLine

/-- One-token lookahead (`this.LA(1)`): chevrotain reports a virtual EOF
token past the end of the input. -/
def la : List Token → TokenType
  | [] => .eof
  | t :: _ => t.ttype

/-- The `nodeEndTokens` set of `src/parser/kdl.js` (lines 63–69). -/
def nodeEndTokens (t : TokenType) : Bool :=
  t == .rightBrace || t == .lineComment || t == .newLine || t == .semiColon || t == .eof

/-- First set of the `string` rule (bare identifier or raw/quoted string). -/
def isStringStart (t : TokenType) : Bool :=
  t == .identifier || t == .rawString

/-- First set of the `nonStringValue` rule (number, boolean, null,
float keywords). -/
def isNonStringValueStart (t : TokenType) : Bool :=
  t == .integer || t == .float || t == .boolean || t == .null || t == .floatKeyword

/-- First set of the `value` rule. -/
def isValueStart (t : TokenType) : Bool :=
  isStringStart t || isNonStringValueStart t

/-- First set of the `propertyOrArgument` rule. -/
def isPropertyOrArgumentStart (t : TokenType) : Bool :=
  t == .leftParenthesis || isValueStart t

/-- First set of the `lineSpace` rule. -/
def isLineSpaceStart (t : TokenType) : Bool :=
  t == .whiteSpace || t == .newLine || t == .lineComment

/-- First set of the `node` rule (optional tag, then the name string). -/
def isNodeStart (t : TokenType) : Bool :=
  t == .leftParenthesis || isStringStart t

/-- First set of the body of the entry loop `MANY` inside `node`
(the union over all three `OR` alternatives, gates not considered,
as chevrotain computes lookahead statically from the grammar). -/
def isEntryLoopStart (t : TokenType) : Bool :=
  isPropertyOrArgumentStart t || t == .leftBrace || t == .blockComment

/-- Parse errors: chevrotain's recognition exceptions
(MismatchedTokenException, NoViableAltException, EarlyExitException),
plus an out-of-fuel marker for the embedding's fuel recursion. -/
inductive PError where
  | mismatch (expected found : TokenType)
  | noViableAlt (found : TokenType)
  | earlyExit (found : TokenType)
  | outOfFuel
deriving DecidableEq, Repr

/-- `this.CONSUME(tok)` for a non-EOF token type. -/
def consume (expected : TokenType) : List Token → Except PError (Token × List Token)
  | [] => .error (.mismatch expected .eof)
  | t :: rest =>
    if t.ttype == expected then .ok (t, rest) else .error (.mismatch expected t.ttype)

/-- Modelled from the spec: the `string` rule of `base.js` (missing from
the sources) — "bare identifier or quoted/raw string, unescaped to its
literal text"; consumes one string-valued token. -/
def stringFn : List Token → Except PError (String × List Token)
  | .identifier s :: rest => .ok (s, rest)
  | .rawString s :: rest => .ok (s, rest)
  | ts => .error (.noViableAlt (la ts))

/-- Modelled from the spec: the `nonStringValue` rule of `base.js`
(missing from the sources) — "number, boolean, null" and the float
keyword spellings. -/
def nonStringValueFn : List Token → Except PError (Value × List Token)
  | .integer i :: rest => .ok (.int i, rest)
  | .float raw :: rest => .ok (.float raw, rest)
  | .boolean b :: rest => .ok (.bool b, rest)
  | .null :: rest => .ok (.null, rest)
  | .floatKeyword raw :: rest => .ok (.float raw, rest)
  | ts => .error (.noViableAlt (la ts))

/-- Modelled from the spec: the `value` rule of `base.js` (missing from
the sources) — a string or a non-string literal. -/
def valueFn (ts : List Token) : Except PError (Value × List Token) :=
  if isStringStart (la ts) then
    match stringFn ts with
    | .ok (s, rest) => .ok (.str s, rest)
    | .error e => .error e
  else nonStringValueFn ts

def dropWhiteSpace : List Token → List Token
  | .whiteSpace :: rest => dropWhiteSpace rest
  | ts => ts

/-- Modelled from the spec: the `nodeSpace` rule of `base.js` (missing
from the sources) — an inline whitespace run (`AT_LEAST_ONE`). -/
def nodeSpaceFn : List Token → Except PError (Unit × List Token)
  | .whiteSpace :: rest => .ok ((), dropWhiteSpace rest)
  | ts => .error (.earlyExit (la ts))

/-- `OPTION(nodeSpace)`: returns whether space was consumed
(the truthiness consulted as `hasSpace` in the `node` rule). -/
def optNodeSpace (ts : List Token) : Bool × List Token :=
  if la ts == .whiteSpace then (true, dropWhiteSpace ts) else (false, ts)

/-- Modelled from the spec: the `lineComment` rule of `base.js` (missing
from the sources) — a line comment token, closed by a newline or by
end-of-input. -/
def lineCommentFn : List Token → Except PError (Unit × List Token)
  | .lineComment :: rest =>
    match rest with
    | .newLine :: rest' => .ok ((), rest')
    | [] => .ok ((), [])
    | t :: _ => .error (.noViableAlt t.ttype)
  | ts => .error (.mismatch .lineComment (la ts))

/-- The loop of the `lineSpace` rule (`src/parser/kdl.js` lines 280–286):
`AT_LEAST_ONE(nodeSpace | NewLine | lineComment)`. -/
def lineSpaceGo (fuel : Nat) (ts : List Token) : Except PError (List Token) :=
  match fuel with
  | 0 => .error .outOfFuel
  | fuel + 1 =>
    match ts with
    | .whiteSpace :: rest => lineSpaceGo fuel (dropWhiteSpace rest)
    | .newLine :: rest => lineSpaceGo fuel rest
    | .lineComment :: _ =>
      match lineCommentFn ts with
      | .ok (_, rest') => lineSpaceGo fuel rest'
      | .error e => .error e
    | _ => .ok ts

/-- The `lineSpace` rule (`src/parser/kdl.js` lines 280–286). -/
def lineSpaceFn (ts : List Token) : Except PError (Unit × List Token) :=
  if isLineSpaceStart (la ts) then
    match lineSpaceGo (ts.length + 1) ts with
    | .ok ts' => .ok ((), ts')
    | .error e => .error e
  else .error (.earlyExit (la ts))

/-- `OPTION(lineSpace)`. -/
def optLineSpace (ts : List Token) : Except PError (List Token) :=
  if isLineSpaceStart (la ts) then
    match lineSpaceFn ts with
    | .ok (_, ts') => .ok ts'
    | .error e => .error e
  else .ok ts

/-- Modelled from the spec: the `tag` rule of `base.js` (missing from
the sources) — `(` optional-space identifier-or-string optional-space `)`. -/
def tagFn (ts : List Token) : Except PError (String × List Token) :=
  match consume .leftParenthesis ts with
  | .error e => .error e
  | .ok (_, ts1) =>
    match stringFn (optNodeSpace ts1).2 with
    | .error e => .error e
    | .ok (s, ts2) =>
      match consume .rightParenthesis (optNodeSpace ts2).2 with
      | .error e => .error e
      | .ok (_, ts3) => .ok (s, ts3)

/-- The key-value-tag-space tuple returned by `propertyOrArgument`
(`src/parser/kdl.js` lines 214–260). -/
structure Parts where
  key : Option String
  value : Value
  tag : Option String
  hasSpace : Bool
deriving DecidableEq, Repr

/-- The `propertyOrArgument` rule (`src/parser/kdl.js` lines 214–260):
ordered alternatives (tagged value / untagged non-string literal /
string possibly reinterpreted as a property key when `=` follows). -/
def propertyOrArgumentFn (ts : List Token) : Except PError (Parts × List Token) :=
  if la ts == .leftParenthesis then
    match tagFn ts with
    | .error e => .error e
    | .ok (tag, ts1) =>
      match valueFn (optNodeSpace ts1).2 with
      | .error e => .error e
      | .ok (v, ts2) =>
        .ok (⟨none, v, some tag, (optNodeSpace ts2).1⟩, (optNodeSpace ts2).2)
  else if isNonStringValueStart (la ts) then
    match nonStringValueFn ts with
    | .error e => .error e
    | .ok (v, ts1) =>
      .ok (⟨none, v, none, (optNodeSpace ts1).1⟩, (optNodeSpace ts1).2)
  else if isStringStart (la ts) then
    match stringFn ts with
    | .error e => .error e
    | .ok (s, ts1) =>
      let ts2 := (optNodeSpace ts1).2
      if la ts2 == .equals then
        let ts3 := (optNodeSpace ts2.tail).2
        match
          (if la ts3 == .leftParenthesis then
            match tagFn ts3 with
            | .error e => .error e
            | .ok (t, ts4) => .ok (some t, (optNodeSpace ts4).2)
          else .ok (none, ts3) : Except PError (Option String × List Token)) with
        | .error e => .error e
        | .ok (tag, ts5) =>
          match valueFn ts5 with
          | .error e => .error e
          | .ok (v, ts6) =>
            .ok (⟨some s, v, tag, (optNodeSpace ts6).1⟩, (optNodeSpace ts6).2)
      else .ok (⟨none, .str s, none, (optNodeSpace ts1).1⟩, ts2)
  else .error (.noViableAlt (la ts))

/-- The `tags` record of a node (`src/parser/kdl.js` lines 129–133). -/
structure NodeTags where
  name : Option String
  properties : List (String × Option String)
  values : List (Option String)
deriving DecidableEq, Repr

/-- A KDL node (`src/parser/kdl.js` lines 124–134).  JS objects with
string keys are modelled as insertion-ordered association lists. -/
inductive Node where
  | mk (name : String) (properties : List (String × Value)) (values : List Value)
      (children : List Node) (tags : NodeTags)

def Node.name : Node → String
  | .mk n _ _ _ _ => n

def Node.properties : Node → List (String × Value)
  | .mk _ ps _ _ _ => ps

def Node.values : Node → List Value
  | .mk _ _ vs _ _ => vs

def Node.children : Node → List Node
  | .mk _ _ _ cs _ => cs

def Node.tags : Node → NodeTags
  | .mk _ _ _ _ tg => tg

/-- JS object property assignment `obj[k] = v`: an existing key keeps its
position and gets the new value, a new key is appended. -/
def setKey {α : Type} (ps : List (String × α)) (k : String) (v : α) : List (String × α) :=
  match ps with
  | [] => [(k, v)]
  | (k', v') :: rest => if k' == k then (k, v) :: rest else (k', v') :: setKey rest k v

/-- JS object property lookup `obj[k]`. -/
def lookupKey {α : Type} (ps : List (String × α)) (k : String) : Option α :=
  match ps with
  | [] => none
  | (k', v') :: rest => if k' == k then some v' else lookupKey rest k

/-- The entry-recording statements of the `node` rule
(`src/parser/kdl.js` lines 156–162): a keyed part updates
`properties` and `tags.properties`, an unkeyed part is pushed onto
`values` and `tags.values`. -/
def applyParts : Node → Parts → Node
  | .mk nm ps vs cs tg, p =>
    match p.key with
    | some k => .mk nm (setKey ps k p.value) vs cs ⟨tg.name, setKey tg.properties k p.tag, tg.values⟩
    | none => .mk nm ps (vs ++ [p.value]) cs ⟨tg.name, tg.properties, tg.values ++ [p.tag]⟩

/-- `node.children = ...` (`src/parser/kdl.js` line 169). -/
def Node.setChildren : Node → List Node → Node
  | .mk nm ps vs _ tg, cs => .mk nm ps vs cs tg

/-- The `nodeTerminator` rule (`src/parser/kdl.js` lines 293–300):
`lineComment | NewLine | SemiColon | EOF`. -/
def nodeTerminatorFn (ts : List Token) : Except PError (List Token) :=
  match ts with
  | [] => .ok []
  | .lineComment :: _ =>
    match lineCommentFn ts with
    | .ok (_, ts') => .ok ts'
    | .error e => .error e
  | .newLine :: rest => .ok rest
  | .semiColon :: rest => .ok rest
  | t :: _ => .error (.noViableAlt t.ttype)

/-- The end of the `node` rule (`src/parser/kdl.js` lines 201–203): if
the lookahead is not a closing brace, a `nodeTerminator` is consumed. -/
def nodeFinish (n : Node) (ts : List Token) : Except PError (Node × List Token) :=
  if la ts == .rightBrace then .ok (n, ts)
  else
    match nodeTerminatorFn ts with
    | .ok ts' => .ok (n, ts')
    | .error e => .error e

/-- The mutually recursive rules of the grammar, at one fuel level. -/
structure Rules where
  nodesR : List Token → List Node → Except PError (List Node × List Token)
  nodeR : List Token → Except PError (Node × List Token)
  nodeLoopR : Node → Bool → Bool → Bool → List Token → Except PError (Node × List Token)
  nodeChildrenR : List Token → Except PError (List Node × List Token)

/-- The `nodes` rule (`src/parser/kdl.js` lines 99–115): a `MANY` over
three ordered alternatives — a block comment discarding the following
node, a run of line space, or a node appended to the result. -/
def nodesStep (prev : Rules) (ts : List Token) (acc : List Node) :
    Except PError (List Node × List Token) :=
  if la ts == .blockComment then
    match optLineSpace ts.tail with
    | .error e => .error e
    | .ok ts1 =>
      match prev.nodeR ts1 with
      | .error e => .error e
      | .ok (_, ts2) => prev.nodesR ts2 acc
  else if isLineSpaceStart (la ts) then
    match lineSpaceFn ts with
    | .error e => .error e
    | .ok (_, ts1) => prev.nodesR ts1 acc
  else if isNodeStart (la ts) then
    match prev.nodeR ts with
    | .error e => .error e
    | .ok (n, ts1) => prev.nodesR ts1 (acc ++ [n])
  else .ok (acc, ts)

/-- The head of the `node` rule (`src/parser/kdl.js` lines 123–146):
optional tag (with optional trailing space), the name string, the
initial `hasSpace`, then the entry loop and the terminator. -/
def nodeStep (prev : Rules) (ts : List Token) : Except PError (Node × List Token) :=
  match
    (if la ts == .leftParenthesis then
      match tagFn ts with
      | .error e => .error e
      | .ok (t, ts1) => .ok (some t, (optNodeSpace ts1).2)
    else .ok (none, ts) : Except PError (Option String × List Token)) with
  | .error e => .error e
  | .ok (nameTag, ts1) =>
    match stringFn ts1 with
    | .error e => .error e
    | .ok (nm, ts2) =>
      match prev.nodeLoopR (.mk nm [] [] [] ⟨nameTag, [], []⟩) false false
          (optNodeSpace ts2).1 (optNodeSpace ts2).2 with
      | .error e => .error e
      | .ok (n, ts4) => nodeFinish n ts4

/-- The entry loop of the `node` rule (`src/parser/kdl.js` lines
148–199): a `MANY` gated on `hasSpace` and on the lookahead not being a
node-end token, over three ordered alternatives — an entry (while
entries are open), a children block (while not yet consumed), or a
block comment discarding an entry (while entries are open) or a
children block (which closes entries). -/
def nodeLoopStep (prev : Rules) (node : Node) (entriesEnded childrenEnded hasSpace : Bool)
    (ts : List Token) : Except PError (Node × List Token) :=
  if hasSpace && !nodeEndTokens (la ts) && isEntryLoopStart (la ts) then
    if !entriesEnded && isPropertyOrArgumentStart (la ts) then
      match propertyOrArgumentFn ts with
      | .error e => .error e
      | .ok (parts, ts1) =>
        prev.nodeLoopR (applyParts node parts) entriesEnded childrenEnded parts.hasSpace ts1
    else if !childrenEnded && la ts == .leftBrace then
      match prev.nodeChildrenR ts with
      | .error e => .error e
      | .ok (cs, ts1) =>
        prev.nodeLoopR (node.setChildren cs) true true
          (optNodeSpace ts1).1 (optNodeSpace ts1).2
    else if la ts == .blockComment then
      match optLineSpace ts.tail with
      | .error e => .error e
      | .ok ts1 =>
        if !entriesEnded && isPropertyOrArgumentStart (la ts1) then
          match propertyOrArgumentFn ts1 with
          | .error e => .error e
          | .ok (parts, ts2) =>
            prev.nodeLoopR node entriesEnded childrenEnded parts.hasSpace ts2
        else if la ts1 == .leftBrace then
          match prev.nodeChildrenR ts1 with
          | .error e => .error e
          | .ok (_, ts2) =>
            prev.nodeLoopR node true childrenEnded
              (optNodeSpace ts2).1 (optNodeSpace ts2).2
        else .error (.noViableAlt (la ts1))
    else .error (.noViableAlt (la ts))
  else .ok (node, ts)

/-- The `nodeChildren` rule (`src/parser/kdl.js` lines 268–273):
`{` nodes `}`. -/
def nodeChildrenStep (prev : Rules) (ts : List Token) :
    Except PError (List Node × List Token) :=
  match consume .leftBrace ts with
  | .error e => .error e
  | .ok (_, ts1) =>
    match prev.nodesR ts1 [] with
    | .error e => .error e
    | .ok (ns, ts2) =>
      match consume .rightBrace ts2 with
      | .error e => .error e
      | .ok (_, ts3) => .ok (ns, ts3)

/-- Every rule fails when the fuel is exhausted. -/
def rulesZero : Rules :=
  ⟨fun _ _ => .error .outOfFuel, fun _ => .error .outOfFuel,
   fun _ _ _ _ _ => .error .outOfFuel, fun _ => .error .outOfFuel⟩

/-- The grammar at a given fuel level: each recursive rule call descends
one level. -/
def rulesAt : Nat → Rules
  | 0 => rulesZero
  | fuel + 1 =>
    let prev := rulesAt fuel
    ⟨nodesStep prev, nodeStep prev, nodeLoopStep prev, nodeChildrenStep prev⟩

/-- Fuel ample for any input: every fuel decrement happens at most four
call levels after a token was consumed. -/
def parseFuel (ts : List Token) : Nat := 4 * ts.length + 8

/-- The `document` rule (`src/parser/kdl.js` lines 86–91): optional BOM,
`nodes`, then end-of-input. -/
def documentFn (ts : List Token) : Except PError (List Node) :=
  match (rulesAt (parseFuel ts)).nodesR (if la ts == .bom then ts.tail else ts) [] with
  | .error e => .error e
  | .ok (ns, ts1) =>
    match ts1 with
    | [] => .ok ns
    | t :: _ => .error (.mismatch .eof t.ttype)

/-- A lexer error (`error` argument of `transformLexerError`,
`src/parser/kdl.js` lines 319–339). -/
structure LexError where
  message : String
  offset : Nat
  length : Nat
  line : Nat
  column : Nat
deriving DecidableEq, Repr

/-- A token as produced by the lexer: the grammar token plus the source
span field consulted by `transformLexerError`. -/
structure RichToken where
  tok : Token
  endOffset : Nat
deriving DecidableEq, Repr

/-- The result of `lexer.tokenize(text)`. -/
structure LexResult where
  tokens : List RichToken
  errors : List LexError
deriving DecidableEq, Repr

/-- `image.split(/\r?\n/g)` on a character list; always non-empty. -/
def splitLines : List Char → List (List Char)
  | [] => [[]]
  | '\r' :: '\n' :: rest =>
    [] :: splitLines rest
  | '\n' :: rest =>
    [] :: splitLines rest
  | c :: rest =>
    match splitLines rest with
    | [] => [[c]]
    | l :: ls => (c :: l) :: ls

/-- The `MismatchedTokenException` built by `transformLexerError`: the
message, the synthetic `Unknown` token created by `createTokenInstance`,
and the previous token. -/
structure Diagnostic where
  message : String
  image : List Char
  startOffset : Nat
  endOffset : Nat
  startLine : Nat
  endLine : Nat
  startColumn : Nat
  endColumn : Nat
  previousToken : Option RichToken
deriving DecidableEq, Repr

/-- `transformLexerError` (`src/parser/kdl.js` lines 319–339). -/
def transformLexerError (error : LexError) (tokens : List RichToken) (text : List Char) :
    Diagnostic :=
  let endOffset := error.offset + error.length
  let image := (text.drop error.offset).take error.length
  let lines := splitLines image
  let prevToken := tokens.find? (fun token => token.endOffset + 1 == error.offset)
  { message := error.message
    image := image
    startOffset := error.offset
    endOffset := endOffset
    startLine := error.line
    endLine := error.line + lines.length - 1
    startColumn := error.column
    endColumn := error.column + (lines.getLastD []).length
    previousToken := prevToken }

/-- A diagnostic in the `errors` array of a `ParseResult`: either a
translated lexer error or a parser error. -/
inductive Diag where
  | lex (d : Diagnostic)
  | parse (e : PError)
deriving DecidableEq, Repr

/-- The `ParseResult` of `parse` (`src/parser/kdl.js` lines 348–354). -/
structure ParseResult where
  output : Option (List Node)
  errors : List Diag

/-- `parse` (`src/parser/kdl.js` lines 362–379), with the lexer made a
parameter (the chevrotain `Lexer` is outside the given sources) and the
grammar engine made a parameter `doc` so that its non-invocation on the
lexer-error path is expressible.  On the lexer-error path the output is
absent and each lexer error is translated; otherwise the document rule
runs on the token stream, a failure leaving the output absent with the
recorded error (chevrotain without error recovery: the first
recognition exception aborts the top rule). -/
def parseWith (lex : List Char → LexResult)
    (doc : List Token → Except PError (List Node)) (text : List Char) : ParseResult :=
  let r := lex text
  if r.errors ≠ [] then
    { output := none
      errors := r.errors.map (fun e => .lex (transformLexerError e r.tokens text)) }
  else
    match doc (r.tokens.map RichToken.tok) with
    | .ok d => { output := some d, errors := [] }
    | .error e => { output := none, errors := [.parse e] }

/-- `parse` with the real document rule. -/
def parse (lex : List Char → LexResult) (text : List Char) : ParseResult :=
  parseWith lex documentFn text

/-- The mutable state of the shared `parser` instance (`src/parser/kdl.js`
line 346): its input buffer and its error list.  Modelled from the spec:
the chevrotain runtime is outside the given sources; assigning
`parser.input` resets the parser (clears errors and the cursor). -/
structure ParserState where
  input : List Token
  errors : List PError

/-- `parse` with the shared parser instance's state made explicit:
returns the result together with the state the shared instance is left
in.  On the lexer-error path the parser instance is not touched; on the
parse path `parser.input = tokens` resets the instance before the
document rule runs. -/
def parseStateful (lex : List Char → LexResult) (st : ParserState) (text : List Char) :
    ParseResult × ParserState :=
  let r := lex text
  if r.errors ≠ [] then
    ({ output := none
       errors := r.errors.map (fun e => .lex (transformLexerError e r.tokens text)) }, st)
  else
    let st1 : ParserState := { input := r.tokens.map RichToken.tok, errors := [] }
    match documentFn st1.input with
    | .ok d => ({ output := some d, errors := [] }, st1)
    | .error e => ({ output := none, errors := [.parse e] }, { st1 with errors := [e] })

/-- Whether some binding of the association list has the given key. -/
def anyKey {α : Type} (ps : List (String × α)) (k : String) : Bool :=
  ps.any (fun kv => kv.1 == k)

/-- Every key of the tag map is also a key of the property map. -/
def keysSubset (tps : List (String × Option String)) (ps : List (String × Value)) : Bool :=
  tps.all (fun kv => anyKey ps kv.1)

mutual

/-- The spec's per-node invariants: `tags.values` is aligned
index-for-index with `values`, the keys of `tags.properties` are keys of
`properties`, and the same holds recursively for the children. -/
def nodeWf : Node → Bool
  | .mk _ ps vs cs tg =>
    (tg.values.length == vs.length) && keysSubset tg.properties ps && nodesWf cs

/-- `nodeWf` on every node of a list. -/
def nodesWf : List Node → Bool
  | [] => true
  | c :: cs => nodeWf c && nodesWf cs

end

theorem anyKey_setKey {α : Type} (ps : List (String × α)) (k k' : String) (v : α) :
    anyKey (setKey ps k v) k' = (anyKey ps k' || (k == k')) := by
  induction ps with
  | nil => simp [setKey, anyKey]
  | cons hd tl ih =>
    simp only [setKey]
    split
    · rename_i heq
      simp only [beq_iff_eq] at heq
      simp only [anyKey, List.any_cons] at *
      rw [heq]
      cases hkk : (k == k') <;> simp [hkk]
    · simp only [anyKey, List.any_cons] at *
      rw [ih, Bool.or_assoc]

theorem anyKey_setKey_self {α : Type} (ps : List (String × α)) (k : String) (v : α) :
    anyKey (setKey ps k v) k = true := by
  rw [anyKey_setKey]
  simp

theorem anyKey_setKey_mono {α : Type} (ps : List (String × α)) (k k' : String) (v : α)
    (h : anyKey ps k' = true) : anyKey (setKey ps k v) k' = true := by
  rw [anyKey_setKey, h]
  simp

theorem mem_setKey {α : Type} (ps : List (String × α)) (k : String) (v : α)
    (kv : String × α) (h : kv ∈ setKey ps k v) : kv.1 = k ∨ kv ∈ ps := by
  induction ps with
  | nil =>
    simp [setKey] at h
    left
    rw [h]
  | cons hd tl ih =>
    simp only [setKey] at h
    split at h
    · rcases List.mem_cons.mp h with h | h
      · left; rw [h]
      · right; exact List.mem_cons_of_mem _ h
    · rcases List.mem_cons.mp h with h | h
      · right; rw [h]; exact List.mem_cons_self _ _
      · rcases ih h with h | h
        · left; exact h
        · right; exact List.mem_cons_of_mem _ h

theorem keysSubset_setKey (tps : List (String × Option String)) (ps : List (String × Value))
    (k : String) (t : Option String) (v : Value) (h : keysSubset tps ps = true) :
    keysSubset (setKey tps k t) (setKey ps k v) = true := by
  simp only [keysSubset, List.all_eq_true] at h ⊢
  intro kv hkv
  rcases mem_setKey tps k t kv hkv with h1 | h1
  · rw [h1]
    exact anyKey_setKey_self ps k v
  · exact anyKey_setKey_mono ps k kv.1 v (h kv h1)

theorem nodesWf_append (acc : List Node) (n : Node) (hacc : nodesWf acc = true)
    (hn : nodeWf n = true) : nodesWf (acc ++ [n]) = true := by
  induction acc with
  | nil => simp [nodesWf, hn]
  | cons c cs ih =>
    simp only [nodesWf, Bool.and_eq_true] at hacc
    simp only [List.cons_append, nodesWf, Bool.and_eq_true]
    exact ⟨hacc.1, ih hacc.2⟩

theorem nodeWf_applyParts (n : Node) (p : Parts) (h : nodeWf n = true) :
    nodeWf (applyParts n p) = true := by
  obtain ⟨nm, ps, vs, cs, tg⟩ := n
  obtain ⟨tgn, tgp, tgv⟩ := tg
  simp only [nodeWf, Bool.and_eq_true, beq_iff_eq] at h
  obtain ⟨⟨hlen, hsub⟩, hcs⟩ := h
  cases hk : p.key with
  | some k =>
    simp only [applyParts, hk, nodeWf, Bool.and_eq_true, beq_iff_eq]
    exact ⟨⟨hlen, keysSubset_setKey tgp ps k p.tag p.value hsub⟩, hcs⟩
  | none =>
    simp only [applyParts, hk, nodeWf, Bool.and_eq_true, beq_iff_eq]
    refine ⟨⟨?_, hsub⟩, hcs⟩
    simp [hlen]

theorem nodeWf_setChildren (n : Node) (cs : List Node) (h : nodeWf n = true)
    (hcs : nodesWf cs = true) : nodeWf (n.setChildren cs) = true := by
  obtain ⟨nm, ps, vs, cs0, tg⟩ := n
  simp only [nodeWf, Bool.and_eq_true] at h
  simp only [Node.setChildren, nodeWf, Bool.and_eq_true]
  exact ⟨h.1, hcs⟩

theorem nodeFinish_ok (n m : Node) (ts ts' : List Token)
    (h : nodeFinish n ts = .ok (m, ts')) : m = n := by
  unfold nodeFinish at h
  split at h
  · cases h
    rfl
  · split at h
    · cases h
      rfl
    · cases h

theorem rulesAt_succ_nodesR (fuel : Nat) :
    (rulesAt (fuel + 1)).nodesR = nodesStep (rulesAt fuel) := rfl

theorem rulesAt_succ_nodeR (fuel : Nat) :
    (rulesAt (fuel + 1)).nodeR = nodeStep (rulesAt fuel) := rfl

theorem rulesAt_succ_nodeLoopR (fuel : Nat) :
    (rulesAt (fuel + 1)).nodeLoopR = nodeLoopStep (rulesAt fuel) := rfl

theorem rulesAt_succ_nodeChildrenR (fuel : Nat) :
    (rulesAt (fuel + 1)).nodeChildrenR = nodeChildrenStep (rulesAt fuel) := rfl

/-- The initial node record of the `node` rule is well-formed. -/
theorem nodeWf_init (nm : String) (nameTag : Option String) :
    nodeWf (.mk nm [] [] [] ⟨nameTag, [], []⟩) = true := rfl

/-- Joint well-formedness of all four recursive rules, by induction on
the fuel: every node any of them returns satisfies the spec invariants. -/
theorem rulesAt_wf (fuel : Nat) :
    (∀ ts acc ns ts', (rulesAt fuel).nodesR ts acc = .ok (ns, ts') →
      nodesWf acc = true → nodesWf ns = true) ∧
    (∀ ts n ts', (rulesAt fuel).nodeR ts = .ok (n, ts') → nodeWf n = true) ∧
    (∀ nd e c hs ts n ts', (rulesAt fuel).nodeLoopR nd e c hs ts = .ok (n, ts') →
      nodeWf nd = true → nodeWf n = true) ∧
    (∀ ts ns ts', (rulesAt fuel).nodeChildrenR ts = .ok (ns, ts') → nodesWf ns = true) := by
  induction fuel with
  | zero =>
    refine ⟨?_, ?_, ?_, ?_⟩ <;> intro ts <;> intros <;>
      simp_all [rulesAt, rulesZero]
  | succ fuel ih =>
    obtain ⟨ihNodes, ihNode, ihLoop, ihChildren⟩ := ih
    refine ⟨?_, ?_, ?_, ?_⟩
    · -- nodes rule
      intro ts acc ns ts' h hacc
      rw [rulesAt_succ_nodesR] at h
      unfold nodesStep at h
      split at h
      · -- block comment alternative: discarded node
        split at h
        · cases h
        · split at h
          · cases h
          · exact ihNodes _ _ _ _ h hacc
      · -- line space alternative
        split at h
        · split at h
          · cases h
          · exact ihNodes _ _ _ _ h hacc
        · -- node alternative / loop end
          split at h
          · split at h
            · cases h
            · rename_i n0 ts1 hnode
              exact ihNodes _ _ _ _ h (nodesWf_append acc n0 hacc (ihNode _ _ _ hnode))
          · cases h
            exact hacc
    · -- node rule
      intro ts n ts' h
      rw [rulesAt_succ_nodeR] at h
      unfold nodeStep at h
      split at h
      · cases h
      · split at h
        · cases h
        · rename_i nmts hstr
          split at h
          · cases h
          · rename_i n0 ts4 hloop
            rw [nodeFinish_ok _ _ _ _ h]
            exact ihLoop _ _ _ _ _ _ _ hloop (nodeWf_init _ _)
    · -- node entry loop
      intro nd e c hs ts n ts' h hnd
      rw [rulesAt_succ_nodeLoopR] at h
      unfold nodeLoopStep at h
      split at h
      · split at h
        · -- entry alternative
          split at h
          · cases h
          · rename_i parts ts1 hpa
            exact ihLoop _ _ _ _ _ _ _ h (nodeWf_applyParts nd parts hnd)
        · split at h
          · -- children alternative
            split at h
            · cases h
            · rename_i cs ts1 hch
              exact ihLoop _ _ _ _ _ _ _ h
                (nodeWf_setChildren nd cs hnd (ihChildren _ _ _ hch))
          · split at h
            · -- commented alternative
              split at h
              · cases h
              · split at h
                · -- commented entry
                  split at h
                  · cases h
                  · exact ihLoop _ _ _ _ _ _ _ h hnd
                · split at h
                  · -- commented children
                    split at h
                    · cases h
                    · exact ihLoop _ _ _ _ _ _ _ h hnd
                  · cases h
            · cases h
      · cases h
        exact hnd
    · -- nodeChildren rule
      intro ts ns ts' h
      rw [rulesAt_succ_nodeChildrenR] at h
      unfold nodeChildrenStep at h
      split at h
      · cases h
      · split at h
        · cases h
        · rename_i ns0 ts2 hns
          split at h
          · cases h
          · cases h
            exact ihNodes _ _ _ _ hns rfl
/-! ## Concrete token streams used by the claims -/

/-- Tokens of `node a=1 a=2`. -/
def tsDupProp : List Token :=
  [.identifier "node", .whiteSpace, .identifier "a", .equals, .integer 1,
   .whiteSpace, .identifier "a", .equals, .integer 2]

/-- Tokens of `node a=(t1)1 a=(t2)2`. -/
def tsDupPropTagged : List Token :=
  [.identifier "node", .whiteSpace, .identifier "a", .equals,
   .leftParenthesis, .identifier "t1", .rightParenthesis, .integer 1,
   .whiteSpace, .identifier "a", .equals,
   .leftParenthesis, .identifier "t2", .rightParenthesis, .integer 2]

/-- Tokens of `foo {} {}`. -/
def tsTwoBlocks : List Token :=
  [.identifier "foo", .whiteSpace, .leftBrace, .rightBrace, .whiteSpace,
   .leftBrace, .rightBrace]

/-- Tokens of `foo {} a=1`. -/
def tsEntryAfterBlock : List Token :=
  [.identifier "foo", .whiteSpace, .leftBrace, .rightBrace, .whiteSpace,
   .identifier "a", .equals, .integer 1]

/-- Tokens of `foo BC a=1` where `BC` is the block-comment token
(a commented entry while entries are open). -/
def tsCommentedEntryOpen : List Token :=
  [.identifier "foo", .whiteSpace, .blockComment, .identifier "a", .equals, .integer 1]

/-- Tokens of `foo {} BC a=1` where `BC` is the block-comment token
(a commented entry after entries closed). -/
def tsCommentedEntryClosed : List Token :=
  [.identifier "foo", .whiteSpace, .leftBrace, .rightBrace, .whiteSpace,
   .blockComment, .identifier "a", .equals, .integer 1]

/-- Tokens of `foo {} BC {}` where `BC` is the block-comment token
(a commented children block after the real children block was consumed). -/
def tsCommentedChildrenAfter : List Token :=
  [.identifier "foo", .whiteSpace, .leftBrace, .rightBrace, .whiteSpace,
   .blockComment, .leftBrace, .rightBrace]

/-- Tokens of `foo BC {} {}` where `BC` is the block-comment token
(a real children block after a commented one). -/
def tsChildrenAfterCommented : List Token :=
  [.identifier "foo", .whiteSpace, .blockComment, .leftBrace, .rightBrace,
   .whiteSpace, .leftBrace, .rightBrace]

/-- Tokens of `foo BC {} a=1` where `BC` is the block-comment token
(an entry after a commented children block). -/
def tsEntryAfterCommentedChildren : List Token :=
  [.identifier "foo", .whiteSpace, .blockComment, .leftBrace, .rightBrace,
   .whiteSpace, .identifier "a", .equals, .integer 1]

/-- Tokens of `foo (u8)255`. -/
def tsTaggedValue : List Token :=
  [.identifier "foo", .whiteSpace, .leftParenthesis, .identifier "u8",
   .rightParenthesis, .integer 255]

/-- Tokens of `foo 1 2 {bar}`. -/
def tsBasicChild : List Token :=
  [.identifier "foo", .whiteSpace, .integer 1, .whiteSpace, .integer 2,
   .whiteSpace, .leftBrace, .identifier "bar", .rightBrace]

/-- The node `foo` with no entries and no children. -/
def fooEmptyNode : Node := .mk "foo" [] [] [] ⟨none, [], []⟩

/-- The document parsed from `foo 1 2 {bar}`. -/
def basicChildDoc : List Node :=
  [.mk "foo" [] [.int 1, .int 2] [.mk "bar" [] [] [] ⟨none, [], []⟩] ⟨none, [], [none, none]⟩]

theorem lookupKey_setKey {α : Type} (ps : List (String × α)) (k : String) (v : α) :
    lookupKey (setKey ps k v) k = some v := by
  induction ps with
  | nil => simp [setKey, lookupKey]
  | cons hd tl ih =>
    simp only [setKey]
    split
    · simp [lookupKey]
    · rename_i hne
      simpa [lookupKey, hne] using ih

/-! ## The claims -/

/-- C1: when lexing produces at least one error, `parse` returns an
absent document together with all lexer errors translated by
`transformLexerError`, and the grammar engine is never run: the result
does not depend on the document rule at all. -/
theorem C1_lex_errors_short_circuit (lex : List Char → LexResult)
    (doc1 doc2 : List Token → Except PError (List Node)) (text : List Char)
    (h : (lex text).errors ≠ []) :
    parseWith lex doc1 text = parseWith lex doc2 text ∧
    (parseWith lex doc1 text).output = none ∧
    (parseWith lex doc1 text).errors =
      (lex text).errors.map (fun e => .lex (transformLexerError e (lex text).tokens text)) := by
  unfold parseWith
  simp [h]

/-- A lexer reporting one error, used to witness C1. -/
def lexWithError : List Char → LexResult :=
  fun _ => ⟨[], [⟨"unexpected character", 0, 1, 1, 1⟩]⟩

def docOkEmpty : List Token → Except PError (List Node) := fun _ => .ok []

def docFail : List Token → Except PError (List Node) := fun _ => .error .outOfFuel

theorem C1_lex_errors_short_circuit_witness :
    (lexWithError []).errors ≠ [] ∧
    (parseWith lexWithError docOkEmpty [] = parseWith lexWithError docFail [] ∧
     (parseWith lexWithError docOkEmpty []).output = none ∧
     (parseWith lexWithError docOkEmpty []).errors =
       (lexWithError []).errors.map
         (fun e => .lex (transformLexerError e (lexWithError []).tokens []))) :=
  ⟨by simp [lexWithError], C1_lex_errors_short_circuit lexWithError docOkEmpty docFail []
    (by simp [lexWithError])⟩

/-- C2: when lexing succeeds but the document rule fails, `parse`
returns an absent document and exactly the first (single) parse error:
a non-empty diagnostics list and no partial tree. -/
theorem C2_grammar_failure_no_partial_tree (lex : List Char → LexResult) (text : List Char)
    (hlex : (lex text).errors = []) (e : PError)
    (hdoc : documentFn ((lex text).tokens.map RichToken.tok) = .error e) :
    (parse lex text).output = none ∧
    (parse lex text).errors = [.parse e] ∧
    (parse lex text).errors ≠ [] := by
  unfold parse parseWith
  simp [hlex, hdoc]

/-- A lexer returning the single token `=` with no errors, used to
witness C2: the document rule rejects it. -/
def lexEqualsOnly : List Char → LexResult := fun _ => ⟨[⟨.equals, 0⟩], []⟩

theorem C2_grammar_failure_no_partial_tree_witness :
    ((lexEqualsOnly []).errors = [] ∧
     documentFn ((lexEqualsOnly []).tokens.map RichToken.tok) = .error (.mismatch .eof .equals)) ∧
    ((parse lexEqualsOnly []).output = none ∧
     (parse lexEqualsOnly []).errors = [.parse (.mismatch .eof .equals)] ∧
     (parse lexEqualsOnly []).errors ≠ []) :=
  ⟨⟨rfl, rfl⟩, C2_grammar_failure_no_partial_tree lexEqualsOnly [] rfl _ rfl⟩

/-- C3: a repeated property key is overwritten — the last occurrence
wins for the value and for the tag.  Concretely, `node a=1 a=2` yields
`properties.a == 2` (with the second occurrence's absent tag), the
tagged variant `node a=(t1)1 a=(t2)2` yields the second tag `t2`, and in
general `setKey` followed by `lookupKey` returns the last binding. -/
theorem C3_duplicate_property_last_wins :
    (∃ nd, documentFn tsDupProp = .ok [nd] ∧
      lookupKey nd.properties "a" = some (.int 2) ∧
      lookupKey nd.tags.properties "a" = some none) ∧
    (∃ nd, documentFn tsDupPropTagged = .ok [nd] ∧
      lookupKey nd.properties "a" = some (.int 2) ∧
      lookupKey nd.tags.properties "a" = some (some "t2")) ∧
    (∀ (α : Type) (ps : List (String × α)) (k : String) (v : α),
      lookupKey (setKey ps k v) k = some v) := by
  refine ⟨⟨.mk "node" [("a", .int 2)] [] [] ⟨none, [("a", none)], []⟩, rfl, rfl, rfl⟩,
    ⟨.mk "node" [("a", .int 2)] [] [] ⟨none, [("a", some "t2")], []⟩, rfl, rfl, rfl⟩,
    fun α ps k v => lookupKey_setKey ps k v⟩

/-- C4: after a node's children block, entries and children are both
closed: a second sibling block (`foo {} {}`) is a parse error, and so is
a further entry (`foo {} a=1`). -/
theorem C4_second_children_block_rejected :
    documentFn tsTwoBlocks = .error (.noViableAlt .leftBrace) ∧
    documentFn tsEntryAfterBlock = .error (.noViableAlt .identifier) :=
  ⟨rfl, rfl⟩

/-- C5 as stated is false: a commented children block is accepted even
after the node's real children block has been consumed — `foo {} BC {}`
(`BC` the block-comment token) parses successfully. -/
theorem C5_counterexample_commented_children_after_close :
    documentFn tsCommentedChildrenAfter = .ok [fooEmptyNode] := rfl

/-- C5 (amended): a commented entry is gated exactly like a live entry
(allowed while entries are open, rejected after they close), but the
commented children block alternative carries no children-closed gate: it
is accepted even after the real children block was consumed, and
consuming it closes entries (but not children). -/
theorem C5_commented_alternatives_gating :
    documentFn tsCommentedEntryOpen = .ok [fooEmptyNode] ∧
    documentFn tsCommentedEntryClosed = .error (.noViableAlt .identifier) ∧
    documentFn tsCommentedChildrenAfter = .ok [fooEmptyNode] ∧
    documentFn tsChildrenAfterCommented = .ok [fooEmptyNode] ∧
    documentFn tsEntryAfterCommentedChildren = .error (.noViableAlt .identifier) :=
  ⟨rfl, rfl, rfl, rfl, rfl⟩

theorem la_cons (t : Token) (rest : List Token) : la (t :: rest) = t.ttype := rfl

/-- C6: in a node list, a block comment followed by (non-line-space)
input from which one full node parses discards that node: the outcome
continues from the remaining tokens with the accumulator unchanged — the
parsed node `n` does not occur in the result. -/
theorem C6_commented_node_discarded (fuel : Nat) (rest rest' : List Token) (n : Node)
    (acc : List Node) (hls : isLineSpaceStart (la rest) = false)
    (hnode : (rulesAt fuel).nodeR rest = .ok (n, rest')) :
    (rulesAt (fuel + 1)).nodesR (Token.blockComment :: rest) acc =
      (rulesAt fuel).nodesR rest' acc := by
  rw [rulesAt_succ_nodesR]
  unfold nodesStep
  simp [la_cons, Token.ttype, optLineSpace, hls, hnode]

/-- The node parsed from `bar` alone. -/
def barNode : Node := .mk "bar" [] [] [] ⟨none, [], []⟩

theorem C6_commented_node_discarded_witness :
    (isLineSpaceStart (la [Token.identifier "bar"]) = false ∧
     (rulesAt 8).nodeR [Token.identifier "bar"] = .ok (barNode, [])) ∧
    (rulesAt 9).nodesR (Token.blockComment :: [Token.identifier "bar"]) [] =
      (rulesAt 8).nodesR [] [] :=
  ⟨⟨rfl, rfl⟩, C6_commented_node_discarded 8 [Token.identifier "bar"] [] barNode []
    rfl rfl⟩

/-- C7: a tagged entry is always a positional argument: whenever
`propertyOrArgument` starts at `(`, the returned key is absent and the
tag is attached to the value; concretely `foo (u8)255` yields a node
with `values = [255]` and `tags.values = [u8]` and no properties. -/
theorem C7_tagged_entry_is_argument :
    (∀ ts parts ts', la ts = .leftParenthesis →
      propertyOrArgumentFn ts = .ok (parts, ts') →
      parts.key = none ∧ parts.tag.isSome = true) ∧
    documentFn tsTaggedValue = .ok [.mk "foo" [] [.int 255] [] ⟨none, [], [some "u8"]⟩] := by
  constructor
  · intro ts parts ts' hla h
    unfold propertyOrArgumentFn at h
    rw [if_pos (by simp [hla])] at h
    split at h
    · cases h
    · split at h
      · cases h
      · cases h
        exact ⟨rfl, rfl⟩
  · rfl

/-- The tagged-entry tokens `(u8)255` and the parts they produce. -/
def tsTaggedEntry : List Token :=
  [.leftParenthesis, .identifier "u8", .rightParenthesis, .integer 255]

def taggedEntryParts : Parts := ⟨none, .int 255, some "u8", false⟩

theorem C7_tagged_entry_is_argument_witness :
    (la tsTaggedEntry = .leftParenthesis ∧
     propertyOrArgumentFn tsTaggedEntry = .ok (taggedEntryParts, [])) ∧
    (taggedEntryParts.key = none ∧ taggedEntryParts.tag.isSome = true) :=
  ⟨⟨rfl, rfl⟩, C7_tagged_entry_is_argument.1 tsTaggedEntry taggedEntryParts [] rfl rfl⟩

/-- C8: every node of a successfully parsed document satisfies the
invariants: `tags.values` is aligned index-for-index with `values`
(equal lengths) and every key of `tags.properties` is a key of
`properties`, recursively through the children. -/
theorem C8_parsed_document_invariants (ts : List Token) (d : List Node)
    (h : documentFn ts = .ok d) : nodesWf d = true := by
  unfold documentFn at h
  split at h
  · simp at h
  · rename_i cs ts1 heq
    split at h
    · cases h
      exact (rulesAt_wf (parseFuel ts)).1 _ _ _ _ heq rfl
    · simp at h

theorem C8_parsed_document_invariants_witness :
    documentFn tsBasicChild = .ok basicChildDoc ∧ nodesWf basicChildDoc = true :=
  ⟨rfl, C8_parsed_document_invariants tsBasicChild basicChildDoc rfl⟩

/-- C9: after a node's entry loop, a closing brace means no terminator
is consumed; otherwise a terminator (line comment, newline, semicolon,
or end-of-input) is mandatory — a newline or semicolon is consumed,
end-of-input is accepted, and any other token is a parse error. -/
theorem C9_terminator_mandatory (n : Node) (ts : List Token) :
    (la ts = .rightBrace → nodeFinish n ts = .ok (n, ts)) ∧
    (la ts = .newLine ∨ la ts = .semiColon → nodeFinish n ts = .ok (n, ts.tail)) ∧
    (ts = [] → nodeFinish n ts = .ok (n, [])) ∧
    (la ts ≠ .rightBrace → la ts ≠ .lineComment → la ts ≠ .newLine → la ts ≠ .semiColon →
      ts ≠ [] → nodeFinish n ts = .error (.noViableAlt (la ts))) := by
  cases ts with
  | nil => simp [nodeFinish, la, nodeTerminatorFn]
  | cons t rest =>
    cases t <;> simp [nodeFinish, la, Token.ttype, nodeTerminatorFn, lineCommentFn]

def termNode : Node := .mk "t" [] [] [] ⟨none, [], []⟩

theorem C9_terminator_mandatory_witness :
    nodeFinish termNode [Token.rightBrace] = .ok (termNode, [Token.rightBrace]) ∧
    nodeFinish termNode [Token.semiColon] = .ok (termNode, []) ∧
    nodeFinish termNode [Token.equals] = .error (.noViableAlt .equals) :=
  ⟨(C9_terminator_mandatory termNode [Token.rightBrace]).1 rfl,
   (C9_terminator_mandatory termNode [Token.semiColon]).2.1 (Or.inr rfl),
   (C9_terminator_mandatory termNode [Token.equals]).2.2.2 (by decide) (by decide)
     (by decide) (by decide) (by decide)⟩

/-- C10: `parse` through the shared parser instance is deterministic:
the result does not depend on the state the shared instance was left in
by previous calls (assigning `parser.input` resets it), so two calls on
the same text return structurally equal results. -/
theorem C10_parse_deterministic (lex : List Char → LexResult) (text : List Char)
    (s1 s2 : ParserState) :
    (parseStateful lex s1 text).1 = (parseStateful lex s2 text).1 := by
  unfold parseStateful
  by_cases h : (lex text).errors = []
  · simp [h]
  · simp [h]
